import Mathlib

/-!
Verification of the body content-type resolution and safe encode/decode
subsystem. Definitions are shallow embeddings of the TypeScript source
(SentResponseBodyCard, HttpBreakpointBodyCard, body-card-components);
helpers that the repository imports from elsewhere (util, content-types,
FormatButton) are modelled from the specification, marked as such in their
doc comments. Bytes are `Nat` values below 256; strings are sequences of
Unicode scalar values (`List Nat`).
-/

namespace BodySubsystem

/-- EncodingChoice from the spec: `utf8` or `binary-preserving` (latin1). -/
inductive EncodingChoice where
  | utf8
  | binary
deriving DecidableEq, Repr

/-- ViewableContentType: the enumerated tags a body can be viewed as. -/
inductive ViewableContentType where
  | text
  | raw
  | base64
  | image
  | json
  | xml
  | html
  | css
  | javascript
  | markdown
  | form
  | eventStream
  | grpcProto
deriving DecidableEq, Repr

/-- EditableContentType: the narrower enumeration for editable contexts. -/
inductive EditableContentType where
  | text
  | json
  | xml
  | html
  | css
  | javascript
deriving DecidableEq, Repr

/-- MessageBody as observed by the cards: decoded bytes (when decoding
succeeded), the encoded raw bytes (when they are an actual buffer), and the
decoding error (when decoding failed). -/
structure MessageBodyM where
  decoded : Option (List Nat)
  encoded : Option (List Nat)
  decodingError : Option String
deriving DecidableEq, Repr

/-- ExchangeMessage as observed by SentResponseBodyCard: the structurally
decoded content type, the declared headers as ordered name/value pairs, and
the body. -/
structure ExchangeMessageM where
  contentType : ViewableContentType
  headers : List (String × String)
  body : MessageBodyM
deriving DecidableEq, Repr

/-- The three decoding-outcome states driving which sub-view renders. -/
inductive DecodingState where
  | decoded
  | failed
  | pending
deriving DecidableEq, Repr

/-! ## UTF-8 codec

Modelled from the spec: `bufferToString`/`stringToBuffer` (src/util, not in
src/) are "the standard UTF-8 mapping for utf8" and "a single-byte-per-
character reversible mapping (Latin-1 semantics)" for binary. We embed a
strict UTF-8 decoder (rejecting overlong forms, surrogates, and
out-of-range code points), a lossy total decoder that emits U+FFFD (65533)
and resynchronises on invalid input, and the standard encoder. -/

/-- Standard UTF-8 encoding of one Unicode scalar value as a byte list. -/
def utf8EncodeChar (cp : Nat) : List Nat :=
  if cp < 128 then [cp]
  else if cp < 2048 then [192 + cp / 64, 128 + cp % 64]
  else if cp < 65536 then [224 + cp / 4096, 128 + (cp / 64) % 64, 128 + cp % 64]
  else [240 + cp / 262144, 128 + (cp / 4096) % 64, 128 + (cp / 64) % 64, 128 + cp % 64]

/-- Standard UTF-8 encoding of a scalar-value sequence. -/
def utf8Encode (cps : List Nat) : List Nat :=
  (cps.map utf8EncodeChar).flatten

/-- Scalar value of a two-byte UTF-8 sequence. -/
def cpTwo (b0 b1 : Nat) : Nat := (b0 - 192) * 64 + (b1 - 128)

/-- Scalar value of a three-byte UTF-8 sequence. -/
def cpThree (b0 b1 b2 : Nat) : Nat := (b0 - 224) * 4096 + (b1 - 128) * 64 + (b2 - 128)

/-- Scalar value of a four-byte UTF-8 sequence. -/
def cpFour (b0 b1 b2 b3 : Nat) : Nat :=
  (b0 - 240) * 262144 + (b1 - 128) * 4096 + (b2 - 128) * 64 + (b3 - 128)

/-- Decode one UTF-8 sequence starting at byte b0: the scalar value and the
remaining bytes, or none when no valid sequence starts here (invalid lead
byte, truncated or bad continuation bytes, overlong form, surrogate, or a
value beyond U+10FFFF). -/
def decodeOne (b0 : Nat) (rest : List Nat) : Option (Nat × List Nat) :=
  if b0 < 128 then some (b0, rest)
  else if b0 < 194 then none
  else if b0 < 224 then
    match rest with
    | b1 :: rest2 =>
      if 128 ≤ b1 ∧ b1 < 192 then some (cpTwo b0 b1, rest2) else none
    | [] => none
  else if b0 < 240 then
    match rest with
    | b1 :: b2 :: rest3 =>
      if (128 ≤ b1 ∧ b1 < 192) ∧ (128 ≤ b2 ∧ b2 < 192) then
        if 2048 ≤ cpThree b0 b1 b2 ∧
           ¬(55296 ≤ cpThree b0 b1 b2 ∧ cpThree b0 b1 b2 < 57344) then
          some (cpThree b0 b1 b2, rest3)
        else none
      else none
    | _ => none
  else if b0 < 245 then
    match rest with
    | b1 :: b2 :: b3 :: rest4 =>
      if (128 ≤ b1 ∧ b1 < 192) ∧ (128 ≤ b2 ∧ b2 < 192) ∧ (128 ≤ b3 ∧ b3 < 192) then
        if 65536 ≤ cpFour b0 b1 b2 b3 ∧ cpFour b0 b1 b2 b3 ≤ 1114111 then
          some (cpFour b0 b1 b2 b3, rest4)
        else none
      else none
    | _ => none
  else none

theorem decodeOne_length {b0 : Nat} {rest : List Nat} {cp : Nat} {rest1 : List Nat}
    (h : decodeOne b0 rest = some (cp, rest1)) : rest1.length ≤ rest.length := by
  unfold decodeOne at h
  repeat' split at h
  all_goals simp_all [List.length_cons]
  all_goals omega

/-- Fuelled strict UTF-8 decoder; the fuel bounds the number of decoded
sequences and is kept structural so the kernel can evaluate it. -/
def utf8DecodeStrictFuel : Nat → List Nat → Option (List Nat)
  | _, [] => some []
  | 0, _ :: _ => none
  | fuel + 1, b0 :: rest =>
    match decodeOne b0 rest with
    | some (cp, rest1) => (utf8DecodeStrictFuel fuel rest1).map (cp :: .)
    | none => none

/-- Strict UTF-8 decoder: `some` scalar values exactly when the byte list is
valid UTF-8 (no overlong forms, no surrogates, max U+10FFFF). Each decoded
sequence consumes at least one byte, so the length is always enough fuel. -/
def utf8DecodeStrict (l : List Nat) : Option (List Nat) :=
  utf8DecodeStrictFuel l.length l

/-- Fuelled total lossy UTF-8 decoder: same acceptance conditions as the
strict decoder, but where no valid sequence starts, U+FFFD (65533) is
produced and decoding resumes at the next byte. -/
def utf8DecodeLossyFuel : Nat → List Nat → List Nat
  | _, [] => []
  | 0, _ :: _ => []
  | fuel + 1, b0 :: rest =>
    match decodeOne b0 rest with
    | some (cp, rest1) => cp :: utf8DecodeLossyFuel fuel rest1
    | none => 65533 :: utf8DecodeLossyFuel fuel rest

/-- Total lossy UTF-8 decoder (the standard replacement-character decode). -/
def utf8DecodeLossy (l : List Nat) : List Nat :=
  utf8DecodeLossyFuel l.length l

/-- A byte list is valid UTF-8 when the strict decoder accepts it. -/
def validUtf8 (b : List Nat) : Bool :=
  (utf8DecodeStrict b).isSome

/-- A non-printable control byte outside common whitespace (tab, LF, CR). -/
def controlByte (x : Nat) : Bool :=
  x < 32 && x ≠ 9 && x ≠ 10 && x ≠ 13

/-- Modelled from the spec: the "dominated by non-printable control bytes
outside common whitespace" test, read as a strict majority of the bytes
being such control bytes. -/
def dominatedByControlBytes (b : List Nat) : Bool :=
  b.length < 2 * b.countP controlByte

/-- Modelled from the spec: `isProbablyUtf8` (src/util, not in src/) holds
when the bytes are plausibly valid UTF-8 text — they decode without
replacement or invalid sequences, and are not dominated by non-printable
control bytes outside common whitespace. -/
def isProbablyUtf8 (b : List Nat) : Bool :=
  validUtf8 b && ! dominatedByControlBytes b

/-- HttpBreakpointBodyCard.textEncoding (src/unnamed/part_001 lines 59-66):
text data is shown and edited as UTF-8; binary data uses latin1 to avoid
lossy conversion. This is the spec's `classify`. -/
def textEncoding (body : List Nat) : EncodingChoice :=
  if isProbablyUtf8 body then .utf8 else .binary

/-- Modelled from the spec: `bufferToString` (src/util, not in src/) — the
spec's `toText`: the standard UTF-8 mapping for `utf8`, the
byte-per-character latin1 mapping for `binary`. -/
def bufferToString (body : List Nat) : EncodingChoice → List Nat
  | .utf8 => utf8DecodeLossy body
  | .binary => body

/-- Modelled from the spec: `stringToBuffer` (src/util, not in src/) — the
spec's `fromText`: UTF-8 encoding for `utf8`; for `binary` each character
becomes its code point modulo 256 (latin1 semantics). -/
def stringToBuffer (s : List Nat) : EncodingChoice → List Nat
  | .utf8 => utf8Encode s
  | .binary => s.map (· % 256)

/-! ## Header helpers and content-type candidate sets -/

/-- Modelled from the spec: `getHeaderValue` (src/util/headers, not in
src/) — headers are an ordered sequence of name/value pairs; this returns
the first value for the given name. -/
def getHeaderValue (headers : List (String × String)) (name : String) : Option String :=
  (headers.find? (fun p => p.1 == name)).map (fun p => p.2)

/-- Modelled from the spec: `lastHeader` (src/util/headers, not in src/) —
the last declared value for the given header name. -/
def lastHeader (headers : List (String × String)) (name : String) : Option String :=
  ((headers.filter (fun p => p.1 == name)).getLast?).map (fun p => p.2)

/-- Modelled from the spec: the fixed mapping from a declared MIME value to
the compatible viewable content types (application/json to json, text/html
to html, image/* to image, and so on). -/
def mimeToViewable (mime : String) : List ViewableContentType :=
  if mime = "application/json" then [.json]
  else if mime = "text/html" then [.html]
  else if mime = "application/xml" ∨ mime = "text/xml" then [.xml]
  else if mime = "text/css" then [.css]
  else if mime = "application/javascript" ∨ mime = "text/javascript" then [.javascript]
  else if mime = "text/markdown" then [.markdown]
  else if mime = "text/plain" then [.text]
  else if mime = "application/x-www-form-urlencoded" then [.form]
  else if mime = "text/event-stream" then [.eventStream]
  else if mime = "application/grpc" then [.grpcProto]
  else if mime.startsWith "image/" then [.image]
  else []

/-- Modelled from the spec: `getCompatibleTypes`
(src/model/events/content-types, not in src/) — the offerable set always
includes the structurally-decoded type and any types compatible with the
declared header MIME value; if neither yields any match it falls back to
the universal baseline set of text and raw. The body argument is consumed
only by the opaque structural classifier and does not otherwise affect the
set. -/
def headerCandidates (declaredHeader : Option String) : List ViewableContentType :=
  match declaredHeader with
  | some m => mimeToViewable m
  | none => []

def getCompatibleTypes (structural : ViewableContentType)
    (declaredHeader : Option String) (body : MessageBodyM) : List ViewableContentType :=
  if (([structural] ++ headerCandidates declaredHeader).dedup).isEmpty then [.text, .raw]
  else ([structural] ++ headerCandidates declaredHeader).dedup

/-- Modelled from the spec: `getEditableContentType`
(src/model/events/content-types, not in src/) — the fixed mapping from a
declared content-type header value to an editable content type, when one
applies. -/
def getEditableContentType (header : Option String) : Option EditableContentType :=
  match header with
  | none => none
  | some h =>
    if h = "application/json" then some .json
    else if h = "text/html" then some .html
    else if h = "application/xml" ∨ h = "text/xml" then some .xml
    else if h = "text/css" then some .css
    else if h = "application/javascript" ∨ h = "text/javascript" then some .javascript
    else if h = "text/plain" then some .text
    else none

/-- ENCODED_DATA_CONTENT_TYPES (src/unnamed/part_000 line 39): content
types offered to explore encoded data after a decoding failure. -/
def ENCODED_DATA_CONTENT_TYPES : List ViewableContentType :=
  [.text, .raw, .base64, .image]

/-! ## SentResponseBodyCard logic (src/unnamed/part_000) -/

/-- SentResponseBodyCard.onChangeContentType (part_000 lines 70-77): if the
chosen type equals the message's own content type the stored selection is
reset to undefined, otherwise the chosen type is stored. -/
def onChangeContentType (msgContentType : ViewableContentType)
    (contentType : Option ViewableContentType) : Option ViewableContentType :=
  if contentType = some msgContentType then none else contentType

/-- SentResponseBodyCard.componentDidMount (part_000 lines 59-68): the
autorun observes the message; when it is absent it invokes
onChangeContentType(undefined) — which dereferences the absent message and
faults (modelled as an error) — and when the message is present the autorun
body falls through without touching the stored selection. -/
def mountAutorunStep (message : Option ExchangeMessageM)
    (selected : Option ViewableContentType) :
    Except Unit (Option ViewableContentType) :=
  match message with
  | none => Except.error ()
  | some _ => Except.ok selected

/-- SentResponseBodyCard.render (part_000 lines 95-97): the effective
(shown) content type is the stored selection when it is a member of the
compatible set, and the message's structural content type otherwise; an
absent selection is never a member. -/
def decodedContentTypeOf (compatible : List ViewableContentType)
    (selected : Option ViewableContentType)
    (msgContentType : ViewableContentType) : ViewableContentType :=
  match selected with
  | some s => if s ∈ compatible then s else msgContentType
  | none => msgContentType

/-- SentResponseBodyCard.render (part_000 lines 146-148): on the
decoding-failure path the shown type is the stored selection when it is in
ENCODED_DATA_CONTENT_TYPES, and text otherwise. -/
def encodedDataContentTypeOf (selected : Option ViewableContentType) : ViewableContentType :=
  match selected with
  | some s => if s ∈ ENCODED_DATA_CONTENT_TYPES then s else .text
  | none => .text

/-- SentResponseBodyCard.render (part_000 lines 99-214): which sub-view is
selected — the decoded view when decoded bytes are present, the error view
when they are absent and a decoding error is present, and the loading view
otherwise. -/
def renderState (body : MessageBodyM) : DecodingState :=
  match body.decoded with
  | some _ => .decoded
  | none =>
    match body.decodingError with
    | some _ => .failed
    | none => .pending

/-- SentResponseBodyCard.render: the content-type options offered by the
header selector in each branch (compatible types when decoded or pending,
the fixed encoded-data set when decoding failed). -/
def renderedContentTypeOptions (msg : ExchangeMessageM) : List ViewableContentType :=
  match msg.body.decoded with
  | some _ =>
    getCompatibleTypes msg.contentType (lastHeader msg.headers "content-type") msg.body
  | none =>
    match msg.body.decodingError with
    | some _ => ENCODED_DATA_CONTENT_TYPES
    | none =>
      getCompatibleTypes msg.contentType (lastHeader msg.headers "content-type") msg.body

/-! ## HttpBreakpointBodyCard logic (src/unnamed/part_001) -/

/-- HttpBreakpointBodyCard.componentDidMount handler (part_001 line 53):
the default editable content type recomputed from the header value,
falling back to text. -/
def breakpointDefaultContentType (header : Option String) : EditableContentType :=
  (getEditableContentType header).getD .text

/-- One step of the mobx reaction (part_001 lines 50-56): the tracked pair
is (last observed header value, stored content type); the handler re-runs
exactly when the observed expression value changes. -/
def reactionStep (prev : Option String × EditableContentType)
    (h : Option String) : Option String × EditableContentType :=
  if h = prev.1 then prev else (h, breakpointDefaultContentType h)

/-- The reaction with fireImmediately: the handler runs synchronously on
the first observed header value, then reactionStep consumes each subsequent
observation; the result is the stored content type at the end. -/
def contentTypeReaction (h0 : Option String) (hs : List (Option String)) : EditableContentType :=
  (hs.foldl reactionStep (h0, breakpointDefaultContentType h0)).2

/-- HttpBreakpointBodyCard.onBodyChange (part_001 lines 116-118): editor
text is converted back to bytes with the current text encoding and emitted
upward. This same function is wired both as the editor's onChange and as
the format button's onBodyFormatted (lines 91 and 109). -/
def onBodyChange (enc : EncodingChoice) (text : List Nat) : List Nat :=
  stringToBuffer text enc

/-- Modelled from the spec: the FormatButton / external formatter contract
(src/components/common/format-button, not in src/) — on success the
formatter's text is passed to onBodyFormatted; on failure the error is
surfaced to the caller and onBodyFormatted is never invoked. The first
component is the text handed to onBodyFormatted, the second the surfaced
error. -/
def handleFormatResult (result : Except String (List Nat)) :
    Option (List Nat) × Option String :=
  match result with
  | .ok text => (some text, none)
  | .error e => (none, some e)

/-- The card-level outcome of a format request: the canonical body bytes
after the request (unchanged on failure, the re-encoded formatted text on
success, funnelled through onBodyChange) paired with the surfaced error. -/
def formatOutcome (body : List Nat) (result : Except String (List Nat)) :
    List Nat × Option String :=
  match handleFormatResult result with
  | (some text, _) => (onBodyChange (textEncoding body) text, none)
  | (none, e) => (body, e)

/-! ## getBodyDownloadFilename (src/src/components/editor/body-card-components.tsx) -/

/-- The literal the filename regex must find: a space, then filename=, then
an opening double quote. -/
def filenameLit : List Char :=
  " filename=".toList ++ ['"']

/-- Whether the first list is a leading segment of the second. -/
def litMatch : List Char → List Char → Bool
  | [], _ => true
  | _ :: _, [] => false
  | a :: as, b :: bs => a = b && litMatch as bs

/-- The regex scan of body-card-components.tsx line 58: find the first
position where the literal matches and at least one non-quote character
followed by a closing quote comes after it; return the captured group.
Failing positions are skipped one character at a time, exactly as a
left-to-right regex scan does. -/
def scanFilename : List Char → Option (List Char)
  | [] => none
  | c :: rest =>
    if litMatch filenameLit (c :: rest) then
      if ((c :: rest).drop 11).takeWhile (fun x => x ≠ '"') ≠ [] ∧
         (((c :: rest).drop 11).takeWhile (fun x => x ≠ '"')).length <
           ((c :: rest).drop 11).length then
        some (((c :: rest).drop 11).takeWhile (fun x => x ≠ '"'))
      else scanFilename rest
    else scanFilename rest

/-- The JS String.split on a single separator character: every maximal
(possibly empty) run between separators, as a list of segments; always
non-empty. -/
def splitOnChar (sep : Char) : List Char → List (List Char)
  | [] => [[]]
  | c :: rest =>
    if c = sep then [] :: splitOnChar sep rest
    else
      match splitOnChar sep rest with
      | seg :: segs => (c :: seg) :: segs
      | [] => [[c]]

/-- getBodyDownloadFilename (body-card-components.tsx lines 56-67): use the
quoted filename from the content-disposition header with path info
stripped; otherwise the last slash-separated url segment when it contains a
dot; otherwise nothing. -/
def getBodyDownloadFilename (url : String) (headers : List (String × String)) : Option String :=
  match scanFilename ((getHeaderValue headers "content-disposition").getD "").toList with
  | some fn =>
    some (String.mk ((splitOnChar '\\' ((splitOnChar '/' fn).getLastD [])).getLastD []))
  | none =>
    if ((splitOnChar '/' url.toList).getLastD []).contains '.' then
      some (String.mk ((splitOnChar '/' url.toList).getLastD []))
    else none

/-! ## Lemmas about the UTF-8 codec -/

theorem utf8Encode_nil : utf8Encode [] = [] := rfl

theorem utf8Encode_cons (a : Nat) (as : List Nat) :
    utf8Encode (a :: as) = utf8EncodeChar a ++ utf8Encode as := by
  simp [utf8Encode]

theorem utf8EncodeChar_ascii (b0 : Nat) (h : b0 < 128) :
    utf8EncodeChar b0 = [b0] := by
  unfold utf8EncodeChar
  rw [if_pos h]

theorem utf8EncodeChar_two (b0 b1 : Nat) (h0 : 194 ≤ b0) (h1 : b0 < 224)
    (h2 : 128 ≤ b1) (h3 : b1 < 192) :
    utf8EncodeChar (cpTwo b0 b1) = [b0, b1] := by
  unfold utf8EncodeChar cpTwo
  rw [if_neg (by omega), if_pos (by omega)]
  simp only [List.cons.injEq, and_true]
  omega

theorem utf8EncodeChar_three (b0 b1 b2 : Nat) (h0 : 224 ≤ b0) (h1 : b0 < 240)
    (h2 : 128 ≤ b1) (h3 : b1 < 192) (h4 : 128 ≤ b2) (h5 : b2 < 192)
    (h6 : 2048 ≤ cpThree b0 b1 b2) :
    utf8EncodeChar (cpThree b0 b1 b2) = [b0, b1, b2] := by
  unfold cpThree at h6 ⊢
  unfold utf8EncodeChar
  rw [if_neg (by omega), if_neg (by omega), if_pos (by omega)]
  simp only [List.cons.injEq, and_true]
  omega

theorem utf8EncodeChar_four (b0 b1 b2 b3 : Nat) (h0 : 240 ≤ b0) (h1 : b0 < 245)
    (h2 : 128 ≤ b1) (h3 : b1 < 192) (h4 : 128 ≤ b2) (h5 : b2 < 192)
    (h6 : 128 ≤ b3) (h7 : b3 < 192) (h8 : 65536 ≤ cpFour b0 b1 b2 b3) :
    utf8EncodeChar (cpFour b0 b1 b2 b3) = [b0, b1, b2, b3] := by
  unfold cpFour at h8 ⊢
  unfold utf8EncodeChar
  rw [if_neg (by omega), if_neg (by omega), if_neg (by omega)]
  simp only [List.cons.injEq, and_true]
  omega

theorem decodeOne_encode {b0 : Nat} {rest : List Nat} {cp : Nat} {rest1 : List Nat}
    (h : decodeOne b0 rest = some (cp, rest1)) :
    utf8EncodeChar cp ++ rest1 = b0 :: rest := by
  unfold decodeOne at h
  by_cases h0 : b0 < 128
  · rw [if_pos h0] at h
    simp only [Option.some.injEq, Prod.mk.injEq] at h
    obtain ⟨h1, h2⟩ := h
    subst h1
    subst h2
    rw [utf8EncodeChar_ascii _ h0]
    rfl
  · rw [if_neg h0] at h
    by_cases h1 : b0 < 194
    · rw [if_pos h1] at h
      simp at h
    · rw [if_neg h1] at h
      by_cases h2 : b0 < 224
      · rw [if_pos h2] at h
        cases rest with
        | nil => simp at h
        | cons b1 rest2 =>
          simp only [] at h
          by_cases hc : 128 ≤ b1 ∧ b1 < 192
          · rw [if_pos hc] at h
            simp only [Option.some.injEq, Prod.mk.injEq] at h
            obtain ⟨hcp, hr⟩ := h
            subst hcp
            subst hr
            rw [utf8EncodeChar_two b0 b1 (by omega) h2 hc.1 hc.2]
            rfl
          · rw [if_neg hc] at h
            simp at h
      · rw [if_neg h2] at h
        by_cases h3 : b0 < 240
        · rw [if_pos h3] at h
          cases rest with
          | nil => simp at h
          | cons b1 rest2 =>
            cases rest2 with
            | nil => simp at h
            | cons b2 rest3 =>
              simp only [] at h
              by_cases hc : (128 ≤ b1 ∧ b1 < 192) ∧ (128 ≤ b2 ∧ b2 < 192)
              · rw [if_pos hc] at h
                by_cases hg : 2048 ≤ cpThree b0 b1 b2 ∧
                    ¬(55296 ≤ cpThree b0 b1 b2 ∧ cpThree b0 b1 b2 < 57344)
                · rw [if_pos hg] at h
                  simp only [Option.some.injEq, Prod.mk.injEq] at h
                  obtain ⟨hcp, hr⟩ := h
                  subst hcp
                  subst hr
                  rw [utf8EncodeChar_three b0 b1 b2 (by omega) h3
                    hc.1.1 hc.1.2 hc.2.1 hc.2.2 hg.1]
                  rfl
                · rw [if_neg hg] at h
                  simp at h
              · rw [if_neg hc] at h
                simp at h
        · rw [if_neg h3] at h
          by_cases h4 : b0 < 245
          · rw [if_pos h4] at h
            cases rest with
            | nil => simp at h
            | cons b1 rest2 =>
              cases rest2 with
              | nil => simp at h
              | cons b2 rest3 =>
                cases rest3 with
                | nil => simp at h
                | cons b3 rest4 =>
                  simp only [] at h
                  by_cases hc : (128 ≤ b1 ∧ b1 < 192) ∧ (128 ≤ b2 ∧ b2 < 192) ∧
                      (128 ≤ b3 ∧ b3 < 192)
                  · rw [if_pos hc] at h
                    by_cases hg : 65536 ≤ cpFour b0 b1 b2 b3 ∧ cpFour b0 b1 b2 b3 ≤ 1114111
                    · rw [if_pos hg] at h
                      simp only [Option.some.injEq, Prod.mk.injEq] at h
                      obtain ⟨hcp, hr⟩ := h
                      subst hcp
                      subst hr
                      rw [utf8EncodeChar_four b0 b1 b2 b3 (by omega) h4
                        hc.1.1 hc.1.2 hc.2.1.1 hc.2.1.2 hc.2.2.1 hc.2.2.2 hg.1]
                      rfl
                    · rw [if_neg hg] at h
                      simp at h
                  · rw [if_neg hc] at h
                    simp at h
          · rw [if_neg h4] at h
            simp at h

theorem utf8DecodeStrict_nil : utf8DecodeStrict [] = some [] := rfl

theorem utf8DecodeLossy_nil : utf8DecodeLossy [] = [] := rfl

theorem utf8_strict_encode_lossy :
    ∀ (fuel : Nat) (l cps : List Nat), l.length ≤ fuel →
      utf8DecodeStrictFuel fuel l = some cps →
      utf8Encode cps = l ∧ utf8DecodeLossyFuel fuel l = cps := by
  intro fuel
  induction fuel with
  | zero =>
    intro l cps hl hd
    cases l with
    | nil =>
      simp only [utf8DecodeStrictFuel, Option.some.injEq] at hd
      subst hd
      exact ⟨rfl, rfl⟩
    | cons b0 rest => simp at hl
  | succ n ih =>
    intro l cps hl hd
    cases l with
    | nil =>
      simp only [utf8DecodeStrictFuel, Option.some.injEq] at hd
      subst hd
      exact ⟨rfl, rfl⟩
    | cons b0 rest =>
      simp only [utf8DecodeStrictFuel] at hd
      split at hd
      · next cp rest1 heq =>
        simp only [Option.map_eq_some'] at hd
        obtain ⟨cps1, hrec, hcons⟩ := hd
        subst hcons
        have hlen : rest1.length ≤ n := by
          have hle := decodeOne_length heq
          simp only [List.length_cons] at hl
          omega
        obtain ⟨henc, hlossy⟩ := ih rest1 cps1 hlen hrec
        refine ⟨?_, ?_⟩
        · rw [utf8Encode_cons, henc]
          exact decodeOne_encode heq
        · simp only [utf8DecodeLossyFuel]
          rw [heq]
          simp only []
          rw [hlossy]
      · next heq => simp at hd

/-- Strict decoding success yields the encoder inverse and agreement with
the lossy decoder. -/
theorem utf8DecodeStrict_roundtrip {l cps : List Nat}
    (h : utf8DecodeStrict l = some cps) :
    utf8Encode cps = l ∧ utf8DecodeLossy l = cps :=
  utf8_strict_encode_lossy l.length l cps le_rfl h

/-! ## Claim C1 -/

/-- C1: for every byte sequence b with e = classify(b) (here textEncoding),
converting b to text with encoding e and back to bytes with the same
encoding yields exactly b: stringToBuffer (bufferToString b e) e = b. -/
theorem c1_encoding_roundtrip (b : List Nat) (hb : ∀ x ∈ b, x < 256) :
    stringToBuffer (bufferToString b (textEncoding b)) (textEncoding b) = b := by
  by_cases hu : isProbablyUtf8 b = true
  · have hcl : textEncoding b = .utf8 := by simp [textEncoding, hu]
    rw [hcl]
    have hv : (utf8DecodeStrict b).isSome := by
      have h2 := hu
      simp only [isProbablyUtf8, validUtf8, Bool.and_eq_true] at h2
      exact h2.1
    obtain ⟨cps, hcps⟩ := Option.isSome_iff_exists.mp hv
    obtain ⟨henc, hlossy⟩ := utf8DecodeStrict_roundtrip hcps
    simp only [bufferToString, stringToBuffer]
    rw [hlossy, henc]
  · have hcl : textEncoding b = .binary := by simp [textEncoding, hu]
    rw [hcl]
    simp only [bufferToString, stringToBuffer]
    have hmap : ∀ x ∈ b, x % 256 = id x := fun x hx => Nat.mod_eq_of_lt (hb x hx)
    exact (List.map_congr_left hmap).trans (List.map_id b)

/-- C1 witness: the round trip at a concrete mixed buffer (104, 105, 255 is
not valid UTF-8, so it takes the binary-preserving path). -/
theorem c1_encoding_roundtrip_witness :
    (∀ x ∈ [104, 105, 255], x < 256) ∧
    stringToBuffer (bufferToString [104, 105, 255] (textEncoding [104, 105, 255]))
        (textEncoding [104, 105, 255]) = [104, 105, 255] :=
  ⟨by decide, c1_encoding_roundtrip [104, 105, 255] (by decide)⟩

/-! ## Claim C8 -/

theorem utf8DecodeStrict_nulls (n : Nat) :
    utf8DecodeStrict (List.replicate n 0) = some (List.replicate n 0) := by
  have key : ∀ (fuel m : Nat), m ≤ fuel →
      utf8DecodeStrictFuel fuel (List.replicate m 0) = some (List.replicate m 0) := by
    intro fuel
    induction fuel with
    | zero =>
      intro m hm
      interval_cases m
      rfl
    | succ k ihk =>
      intro m hm
      cases m with
      | zero => rfl
      | succ j =>
        rw [List.replicate_succ]
        simp only [utf8DecodeStrictFuel]
        rw [show decodeOne 0 (List.replicate j 0) = some (0, List.replicate j 0) from rfl]
        simp only []
        rw [ihk j (by omega)]
        rfl
  have := key (List.replicate n 0).length n (by simp)
  simpa [utf8DecodeStrict] using this

theorem countP_controlByte_nulls (n : Nat) :
    (List.replicate n 0).countP controlByte = n := by
  induction n with
  | zero => rfl
  | succ m ihm =>
    rw [List.replicate_succ, List.countP_cons, ihm]
    rw [show controlByte 0 = true from rfl]
    simp

/-- C8: classify (textEncoding) is a total function of the byte buffer; the
empty sequence is classified utf8, and a non-empty sequence of only null
bytes is classified binary-preserving. -/
theorem c8_classify_total (n : Nat) (hn : 0 < n) :
    textEncoding [] = .utf8 ∧ textEncoding (List.replicate n 0) = .binary := by
  constructor
  · decide
  · have hdom : dominatedByControlBytes (List.replicate n 0) = true := by
      simp only [dominatedByControlBytes, countP_controlByte_nulls,
        List.length_replicate, decide_eq_true_eq]
      omega
    have hips : isProbablyUtf8 (List.replicate n 0) = false := by
      simp [isProbablyUtf8, hdom]
    simp [textEncoding, hips]

/-- C8 witness: the checkpoints at n = 1. -/
theorem c8_classify_total_witness :
    0 < 1 ∧ (textEncoding [] = .utf8 ∧ textEncoding (List.replicate 1 0) = .binary) :=
  ⟨by decide, c8_classify_total 1 (by decide)⟩

/-! ## Claim C2 -/

theorem structural_mem_getCompatibleTypes (st : ViewableContentType)
    (hdr : Option String) (body : MessageBodyM) :
    st ∈ getCompatibleTypes st hdr body := by
  unfold getCompatibleTypes
  split
  · next hEmpty =>
    exfalso
    have hmem : st ∈ ([st] ++ headerCandidates hdr).dedup :=
      List.mem_dedup.mpr (by simp)
    rw [List.isEmpty_iff] at hEmpty
    rw [hEmpty] at hmem
    exact absurd hmem (List.not_mem_nil st)
  · next => exact List.mem_dedup.mpr (by simp)

/-- C2: the effective content type shown by the decoded view is always a
member of the offerable candidate set; a pinned selection outside that set
is discarded in favour of the structural type. -/
theorem c2_effective_in_offerable (msg : ExchangeMessageM)
    (selected : Option ViewableContentType) :
    decodedContentTypeOf
        (getCompatibleTypes msg.contentType (lastHeader msg.headers "content-type") msg.body)
        selected msg.contentType ∈
      getCompatibleTypes msg.contentType (lastHeader msg.headers "content-type") msg.body ∧
    (∀ o, selected = some o →
      o ∉ getCompatibleTypes msg.contentType (lastHeader msg.headers "content-type") msg.body →
      decodedContentTypeOf
          (getCompatibleTypes msg.contentType (lastHeader msg.headers "content-type") msg.body)
          selected msg.contentType = msg.contentType) := by
  have hst := structural_mem_getCompatibleTypes msg.contentType
    (lastHeader msg.headers "content-type") msg.body
  constructor
  · cases selected with
    | none => exact hst
    | some s =>
      by_cases hs : s ∈ getCompatibleTypes msg.contentType
          (lastHeader msg.headers "content-type") msg.body
      · simp [decodedContentTypeOf, hs]
      · simpa [decodedContentTypeOf, hs] using hst
  · intro o ho hno
    subst ho
    simp [decodedContentTypeOf, hno]

/-- C2 witness: with structural type json and a stale raw selection, the
effective type collapses to json (a member of the offerable set). -/
theorem c2_effective_in_offerable_witness :
    decodedContentTypeOf
        (getCompatibleTypes ViewableContentType.json (lastHeader [] "content-type")
          ⟨some [], none, none⟩)
        (some .raw) .json = .json :=
  (c2_effective_in_offerable ⟨.json, [], ⟨some [], none, none⟩⟩ (some .raw)).2 .raw rfl
    (by decide)

/-! ## Claim C3 -/

/-- C3: whenever decoding failed (no decoded bytes, an error present), the
offered candidate set for the raw encoded bytes is exactly the four-element
list text, raw, base64, image, regardless of the declared content type or
headers. -/
theorem c3_failed_offerable_fixed (msg : ExchangeMessageM) (e : String)
    (h1 : msg.body.decoded = none) (h2 : msg.body.decodingError = some e) :
    renderedContentTypeOptions msg = [.text, .raw, .base64, .image] := by
  unfold renderedContentTypeOptions
  rw [h1, h2]
  rfl

/-- C3 witness: the UNKNOWN_ENCODING brotli scenario with declared type
json still offers exactly text, raw, base64, image. -/
theorem c3_failed_offerable_fixed_witness :
    renderedContentTypeOptions
      ⟨.json, [("content-type", "application/json"), ("content-encoding", "brotli")],
        ⟨none, some [1, 2], some "UNKNOWN_ENCODING"⟩⟩ = [.text, .raw, .base64, .image] :=
  c3_failed_offerable_fixed _ "UNKNOWN_ENCODING" rfl rfl

/-! ## Claim C4 -/

/-- C4: the rendered decoding state is a pure projection of the payload:
Decoded exactly when decoded bytes are present, Failed exactly when they
are absent and an error is present, Pending exactly otherwise; totality of
renderState gives that exactly one sub-view is selected. -/
theorem c4_decoding_state_projection (body : MessageBodyM) :
    (renderState body = .decoded ↔ (body.decoded).isSome) ∧
    (renderState body = .failed ↔ body.decoded = none ∧ (body.decodingError).isSome) ∧
    (renderState body = .pending ↔ body.decoded = none ∧ body.decodingError = none) := by
  rcases body with ⟨d, enc, err⟩
  cases d <;> cases err <;> simp [renderState]

/-! ## Claim C5 -/

theorem reactionStep_invariant (hs : List (Option String)) :
    ∀ (p : Option String × EditableContentType),
      p.2 = breakpointDefaultContentType p.1 →
      (hs.foldl reactionStep p).2 = breakpointDefaultContentType (hs.getLastD p.1) := by
  induction hs with
  | nil =>
    intro p hp
    simpa using hp
  | cons a t iht =>
    intro p hp
    rw [List.foldl_cons, List.getLastD_cons]
    have hstep1 : (reactionStep p a).1 = a := by
      unfold reactionStep
      split
      · next hcond => exact hcond.symm
      · rfl
    have hstep2 : (reactionStep p a).2 = breakpointDefaultContentType (reactionStep p a).1 := by
      unfold reactionStep
      split
      · next hcond => exact hp
      · rfl
    rw [iht (reactionStep p a) hstep2, hstep1]

/-- C5: the reaction fires synchronously on the first observed
content-type header value and again on every subsequent change, so after
any sequence of observed header values the tracked editable content type
equals the recomputed default for the most recent value (falling back to
text when the header maps to no editable type, per
breakpointDefaultContentType). -/
theorem c5_reaction_tracks_header (h0 : Option String) (hs : List (Option String)) :
    contentTypeReaction h0 hs = breakpointDefaultContentType (hs.getLastD h0) :=
  reactionStep_invariant hs (h0, breakpointDefaultContentType h0) rfl

/-! ## Claim C6 -/

/-- C6 counterexample: the claim is false on the code. With a pinned
override (raw) stored and the payload identity changing to a present
message (structural type json, no prior interaction with it), the
mount-time autorun leaves the override in place instead of clearing it to
absent. -/
theorem c6_counterexample :
    mountAutorunStep (some ⟨.json, [], ⟨some [], none, none⟩⟩)
      (some .raw) ≠ Except.ok none := by
  simp [mountAutorunStep]

/-- C6 amended: when the payload changes to any present message, the
mount-time autorun leaves the stored user override unchanged (it only acts
when the message is absent); stale overrides are instead neutralised at
resolve time, where a non-offerable selection is ignored in favour of the
structural type. -/
theorem c6_override_preserved_on_change (msg : ExchangeMessageM)
    (selected : Option ViewableContentType) :
    mountAutorunStep (some msg) selected = Except.ok selected := rfl

/-! ## Claim C7 -/

/-- C7: choosing the type that would be selected automatically (the
message's structural content type) stores no override; choosing any other
type pins exactly that type. -/
theorem c7_noop_pin_collapses (msgCT chosen : ViewableContentType) :
    (chosen = msgCT → onChangeContentType msgCT (some chosen) = none) ∧
    (chosen ≠ msgCT → onChangeContentType msgCT (some chosen) = some chosen) := by
  constructor
  · intro h
    simp [onChangeContentType, h]
  · intro h
    simp [onChangeContentType, h]

/-- C7 witness: both behaviours at concrete inputs. -/
theorem c7_noop_pin_collapses_witness :
    onChangeContentType .json (some .json) = none ∧
    onChangeContentType .json (some .raw) = some .raw :=
  ⟨(c7_noop_pin_collapses .json .json).1 rfl,
   (c7_noop_pin_collapses .json .raw).2 (by decide)⟩

/-! ## Claim C9 -/

/-- C9: when the external formatter fails, the error is surfaced and the
body bytes are left exactly unchanged (no onChange is emitted); when it
succeeds, the formatted text is funnelled through onBodyChange, the very
function wired as the editor's manual-edit onChange handler. -/
theorem c9_format_failure_leaves_body (body : List Nat)
    (result : Except String (List Nat)) :
    (∀ e, result = Except.error e → formatOutcome body result = (body, some e)) ∧
    (∀ t, result = Except.ok t →
      formatOutcome body result = (onBodyChange (textEncoding body) t, none)) := by
  constructor
  · intro e he
    subst he
    rfl
  · intro t ht
    subst ht
    rfl

/-- C9 witness: formatting the malformed JSON bytes 123, 97, 58, 125 fails
with FormatError and the bytes remain the original malformed bytes. -/
theorem c9_format_failure_leaves_body_witness :
    formatOutcome [123, 97, 58, 125] (Except.error "FormatError") =
      ([123, 97, 58, 125], some "FormatError") :=
  (c9_format_failure_leaves_body [123, 97, 58, 125]
    (Except.error "FormatError")).1 "FormatError" rfl

/-! ## Claim C10 -/

/-- C10: getBodyDownloadFilename returns the quoted filename of the
content-disposition filename directive with path information stripped
(segment after the last slash, then after the last backslash); otherwise
the last slash-separated url segment when it contains a dot; otherwise
nothing. -/
theorem c10_download_filename (url : String) (headers : List (String × String)) :
    (∀ fn, scanFilename ((getHeaderValue headers "content-disposition").getD "").toList =
        some fn →
      getBodyDownloadFilename url headers =
        some (String.mk ((splitOnChar '\\' ((splitOnChar '/' fn).getLastD [])).getLastD []))) ∧
    (scanFilename ((getHeaderValue headers "content-disposition").getD "").toList = none →
      getBodyDownloadFilename url headers =
        if ((splitOnChar '/' url.toList).getLastD []).contains '.' then
          some (String.mk ((splitOnChar '/' url.toList).getLastD []))
        else none) := by
  constructor
  · intro fn h
    unfold getBodyDownloadFilename
    rw [h]
  · intro h
    unfold getBodyDownloadFilename
    rw [h]

/-- C10 witness: a content-disposition filename with both slash and
backslash path segments is stripped to its basename. -/
theorem c10_download_filename_witness :
    getBodyDownloadFilename "http://example.com/path/f.txt"
      [("content-disposition", "attachment; filename=\"dir/sub\\file.bin\"")] =
      some "file.bin" := by
  have h := (c10_download_filename "http://example.com/path/f.txt"
    [("content-disposition", "attachment; filename=\"dir/sub\\file.bin\"")]).1
    ['d', 'i', 'r', '/', 's', 'u', 'b', '\\', 'f', 'i', 'l', 'e', '.', 'b', 'i', 'n']
    (by decide)
  rw [h]
  decide

end BodySubsystem
